import Mathlib

/-!
Verification of the `nonebot-plugin-comment-analysis` plugin
(`src/nonebot_plugin_comment_analysis/__init__.py`) against its
natural-language specification.

The Python source is shallowly embedded: pure helpers become Lean
functions, and the request handler (`handle_bilibili`), the delivery
helper (`auto_video_send`) and the export helpers become explicit
state-passing functions over an abstract file-system state
(`Finset TmpFile`) that also produce a trace of observable events
(`List Ev`).  Exceptions are modelled as an explicit boolean / `Except`
component.  The two helpers `download_b_file` and `merge_file_to_mp4`
are imported from `.bilibili_analysis`, which is not part of `src/`;
their file-system behaviour is modelled from the spec (sections 4.1 and
4.3) where noted.
-/

/-- Inline-delivery size threshold, `VIDEO_MAX_MB = 100` from line 40 of
the source (hard-coded, with a comment that it stands in for a config
default). -/
def VIDEO_MAX_MB : ℕ := 100

/-- Python `round` to an integer, i.e. round-half-to-even, embedded on
rationals.  (The source computes on binary floats; on the byte counts
appearing in the claims the rational and float computations agree, and
no tie-breaking case is exercised at a float-representation boundary.) -/
def pyRoundInt (q : ℚ) : ℤ :=
  let n := ⌊q⌋
  if q - n < 1 / 2 then n
  else if 1 / 2 < q - n then n + 1
  else if n % 2 = 0 then n else n + 1

/-- Python `round(x, 2)`: round to two decimal places, half to even. -/
def pyRound2 (q : ℚ) : ℚ := pyRoundInt (q * 100) / 100

/-- `get_file_size_mb` (source lines 59-62): the file's size in bytes
divided by `1024 * 1024`, rounded to two decimal places.  The embedding
takes the byte count directly instead of reading it from the path. -/
def get_file_size_mb (sizeBytes : ℕ) : ℚ :=
  pyRound2 ((sizeBytes : ℚ) / (1024 * 1024))

/-- The two delivery strategies of `auto_video_send`. -/
inductive DeliveryMode where
  | inlineMedia
  | fileUpload
deriving DecidableEq

/-- Delivery-mode selection from `auto_video_send` (source lines
115-122): file upload iff `get_file_size_mb(path) > VIDEO_MAX_MB`,
otherwise an inline video segment. -/
def deliveryMode (sizeBytes : ℕ) : DeliveryMode :=
  if get_file_size_mb sizeBytes > (VIDEO_MAX_MB : ℚ) then .fileUpload else .inlineMedia

/-- `itertools.zip_longest(danmakus, comments, fillvalue="")` from
`create_danmaku_comment_csv_async` (source line 191). -/
def zipLongestFill : List String → List String → List (String × String)
  | [], [] => []
  | x :: xs, [] => (x, "") :: zipLongestFill xs []
  | [], y :: ys => ("", y) :: zipLongestFill [] ys
  | x :: xs, y :: ys => (x, y) :: zipLongestFill xs ys

/-- The rows written by `create_danmaku_comment_csv_async` (source lines
188-192): a header row followed by the zipped caption/comment pairs. -/
def csvRows (danmakus comments : List String) : List (List String) :=
  ["弹幕", "评论"] :: (zipLongestFill danmakus comments).map (fun p => [p.1, p.2])

/-- Encoding passed to `aiofiles.open` for the CSV (source line 188):
UTF-8 with a byte-order mark. -/
def csvEncoding : String := "utf-8-sig"

/-- `page_num` computation of `handle_bilibili` (source lines 284-287):
the `p` query parameter (default 1) minus one. -/
def pageNumOf (pParam : Option ℤ) : ℤ := pParam.getD 1 - 1

/-- Python list indexing `l[i]`: negative indices count from the end;
an out-of-range index raises `IndexError`, modelled as `none`. -/
def pyListGet (l : List (Option ℕ)) (i : ℤ) : Option (Option ℕ) :=
  if 0 ≤ i then l.get? i.toNat
  else if 0 ≤ i + l.length then l.get? (i + l.length).toNat
  else none

/-- Effective duration selection of `handle_bilibili` (source lines
284-290).  `pages` is `video_info['pages']` when present, each entry
being the page's `duration` value when the key exists; `dur` is the
whole-video `video_info['duration']`.  Result `none` models a raised
`IndexError`. -/
def effectiveDuration (pParam : Option ℤ) (pages : Option (List (Option ℕ)))
    (dur : ℕ) : Option ℕ :=
  let pn := pageNumOf pParam
  match pages with
  | none => some dur
  | some ps =>
    if pn < (ps.length : ℤ) then
      match pyListGet ps pn with
      | none => none
      | some d => some (d.getD dur)
    else some dur

/-! ### Danmaku / comment fetchers (C8) -/

/-- Outcomes of the two HTTP requests performed by
`get_danmaku_list_async` (source lines 133-148): the pagelist request
raises, the danmaku-XML request raises, or both succeed and yield the
danmaku texts. -/
inductive DanmakuEnv where
  | pagelistFail
  | dmListFail
  | ok (texts : List String)

/-- The body of the `try` block in `get_danmaku_list_async`.  An
`error` value carries the contents of the mutable `danmaku_list`
accumulated before the exception (both possible failures occur before
any `extend`, so the accumulated list is empty there). -/
def danmakuBody : DanmakuEnv → Except (List String) (List String)
  | .pagelistFail => .error []
  | .dmListFail => .error []
  | .ok texts => .ok texts

/-- `get_danmaku_list_async` (source lines 133-148): the body runs under
a catch-all `except`, and the function returns the accumulated list in
either case. -/
def get_danmaku_list_async (e : DanmakuEnv) : List String :=
  match danmakuBody e with
  | .ok l => l
  | .error acc => acc

/-- One top-level reply record as consumed by `get_comments_list_async`
(source lines 166-171): member name, message, like count, and the
messages of its sub-replies. -/
structure Reply where
  uname : String
  msg : String
  like : ℕ
  subs : List String

/-- One page of `comment.get_comments` results (source lines 157-172):
the reply list and the `page` record's `num`, `size` and `count`. -/
structure CommentPage where
  replies : List Reply
  num : ℕ
  size : ℕ
  count : ℕ

/-- Formatting of one top-level comment (source line 167). -/
def formatComment (r : Reply) : String :=
  r.uname ++ ":" ++ r.msg ++ ",点赞：" ++ toString r.like

/-- Formatting of one sub-reply (source line 170). -/
def formatSub (uname sub : String) : String :=
  "回复@" ++ uname ++ ": " ++ sub

/-- The strings appended for one top-level reply together with its
sub-replies (source lines 166-171). -/
def processReply (r : Reply) : List String :=
  formatComment r :: r.subs.map (formatSub r.uname)

/-- The strings appended for one page of replies; the page is always
processed in full even if the count limit is crossed mid-page. -/
def processReplies (rs : List Reply) : List String :=
  rs.foldr (fun r acc => processReply r ++ acc) []

/-- `max_comments` default of `get_comments_list_async` (source line 151). -/
def maxComments : ℕ := 2000

/-- The `while` loop of `get_comments_list_async` (source lines
154-175).  The environment lists the successive `comment.get_comments`
responses; `none` models a raised exception on that request (including
running past the provided responses).  The second component records
whether the loop was exited by an exception (which the caller's
catch-all `except` absorbs); the first component is the accumulated
`comments_list`, which survives the exception because it is mutated in
place. -/
def commentsLoop : List (Option CommentPage) → ℕ → List String → List String × Bool
  | [], c, a => if maxComments ≤ c then (a, false) else (a, true)
  | none :: _, c, a => if maxComments ≤ c then (a, false) else (a, true)
  | some pg :: rest, c, a =>
    if maxComments ≤ c then (a, false)
    else if pg.replies.isEmpty then (a, false)
    else
      let items := processReplies pg.replies
      if pg.count ≤ pg.num * pg.size then (a ++ items, false)
      else commentsLoop rest (c + items.length) (a ++ items)

/-- `get_comments_list_async` (source lines 151-178): the loop runs
under a catch-all `except` and the accumulated list is returned whether
or not an exception was raised. -/
def get_comments_list_async (env : List (Option CommentPage)) : List String :=
  (commentsLoop env 0 []).1

/-! ### Abstract file-system and event model for `handle_bilibili` -/

/-- The temporary files a single video request can touch, named after
the layout in `handle_bilibili` (source lines 310-313), `download_video`
(line 66) and `create_danmaku_comment_csv_async` (line 186); `thumb f`
is the implicit same-name `.jpg` sidecar of `f` cleaned by
`auto_video_send` (line 126). -/
inductive TmpFile where
  | videoM4s
  | audioM4s
  | resMp4
  | dlTmp
  | csvF
  | thumb (f : TmpFile)
deriving DecidableEq

/-- Concrete path of each `TmpFile` (relative to the working directory)
as built by the source: `videoId` is the `BV` id captured at line 274
and `tmpName` the `str(time.time())` token of `download_video`. -/
def fileName (videoId tmpName : String) : TmpFile → String
  | .videoM4s => videoId ++ "-video.m4s"
  | .audioM4s => videoId ++ "-audio.m4s"
  | .resMp4 => videoId ++ "-res.mp4"
  | .dlTmp => tmpName ++ ".mp4"
  | .csvF => videoId ++ "_弹幕评论.csv"
  | .thumb f => fileName videoId tmpName f ++ ".jpg"

/-- Observable events of one request: chat sends, download/mux/delivery
steps, file deletions, and the export steps. -/
inductive Ev where
  | sendInfo
  | sendTooLong
  | launchVideoDl
  | launchAudioDl
  | videoDlDone (ok : Bool)
  | audioDlDone (ok : Bool)
  | muxStart
  | muxDone (ok : Bool)
  | deliverStart
  | deliverDone
  | fetchRemote (ok : Bool)
  | sendOversizeNotice
  | uploadVideoFile
  | sendInlineVideo
  | deliverCaught
  | unlink (f : TmpFile)
  | sendExportNotice
  | csvCreated
  | csvUploaded
  | sendApology
  | aiSummary
deriving DecidableEq

/-- `if os.path.exists(p): os.unlink(p)` / `os.remove(p)` on the
abstract file set, recording the deletion event when it happens. -/
def unlink1 (f : TmpFile) (files : Finset TmpFile) : Finset TmpFile × List Ev :=
  if f ∈ files then (files.erase f, [.unlink f]) else (files, [])

/-- Outcome of `download_video` (source lines 65-76) when
`auto_video_send` is handed a remote URL: the stream either completes
(the temporary `.mp4` exists and its path is returned), fails mid-stream
(the partially written file exists but the exception propagates before
the path is returned), or fails before the destination file is ever
created. -/
inductive FetchOutcome where
  | ok
  | failMid
  | failConnect
deriving DecidableEq

/-- Environment for one `auto_video_send` call: outcomes of the
external effects it performs and the size `os.path.getsize` reports for
the local artifact. -/
structure AvsEnv where
  fetch : FetchOutcome
  noticeSendOk : Bool
  uploadOk : Bool
  inlineSendOk : Bool
  thumbCreated : Bool
  sizeBytes : ℕ

/-- `data_path` argument of `auto_video_send`: a local artifact or a
remote `http` URL. -/
inductive AvsInput where
  | localFile (f : TmpFile)
  | remoteUrl
deriving DecidableEq

/-- Result of `auto_video_send`: the file set after its `finally`
block, the produced events, and whether the catch-all `except` fired
(the function itself never lets an exception escape). -/
structure AvsRes where
  files : Finset TmpFile
  trace : List Ev
  caught : Bool
deriving DecidableEq

/-- Remote-materialisation phase of `auto_video_send` (source lines
112-113): when `data_path` is an `http` URL, `download_video` streams
it to a fresh temporary file; `data_path` is rebound to the local path
only when the download returns, so a mid-stream failure leaves the
partial file behind while `data_path` still holds the URL. -/
def avsPhase1 (input : AvsInput) (env : AvsEnv) (files : Finset TmpFile) :
    Finset TmpFile × List Ev × Option TmpFile × Bool :=
  match input with
  | .localFile f => (files, [], some f, false)
  | .remoteUrl =>
    match env.fetch with
    | .ok => (insert .dlTmp files, [.fetchRemote true], some .dlTmp, false)
    | .failMid => (insert .dlTmp files, [.fetchRemote false], none, true)
    | .failConnect => (files, [.fetchRemote false], none, true)

/-- Size measurement and delivery attempt (source lines 115-122). -/
def avsPhase2 (env : AvsEnv) (files1 : Finset TmpFile) (dp : Option TmpFile)
    (raised1 : Bool) : Finset TmpFile × List Ev × Bool :=
  if raised1 then (files1, [], true)
  else
    match dp with
    | none => (files1, [], true)
    | some f =>
      if f ∈ files1 then
        if get_file_size_mb env.sizeBytes > (VIDEO_MAX_MB : ℚ) then
          if env.noticeSendOk then
            (files1, [.sendOversizeNotice, .uploadVideoFile], !env.uploadOk)
          else (files1, [.sendOversizeNotice], true)
        else
          let files2 := if env.thumbCreated then insert (.thumb f) files1 else files1
          (files2, [.sendInlineVideo], !env.inlineSendOk)
      else (files1, [], true)

/-- The `finally` block (source lines 125-128): delete `data_path` and
its `.jpg` sidecar when they exist. -/
def avsFinally (dp : Option TmpFile) (files2 : Finset TmpFile) :
    Finset TmpFile × List Ev :=
  match dp with
  | some f =>
    let u1 := unlink1 f files2
    let u2 := unlink1 (.thumb f) u1.1
    (u2.1, u1.2 ++ u2.2)
  | none => (files2, [])

/-- `auto_video_send` (source lines 109-128).  The body downloads a
remote artifact if needed, measures the local file, then either sends
an oversize notice followed by a file upload (`size > VIDEO_MAX_MB`) or
an inline video segment (during which the client may drop a `.jpg`
sidecar next to the file).  Any exception is caught and logged; the
`finally` block deletes the current value of `data_path` and its `.jpg`
sidecar when they exist as files. -/
def auto_video_send (input : AvsInput) (env : AvsEnv) (files : Finset TmpFile) : AvsRes :=
  let st1 := avsPhase1 input env files
  let st2 := avsPhase2 env st1.1 st1.2.2.1 st1.2.2.2
  let trC : List Ev := if st2.2.2 then [.deliverCaught] else []
  let fin := avsFinally st1.2.2.1 st2.1
  ⟨fin.1, [.deliverStart] ++ st1.2.1 ++ st2.2.1 ++ trC ++ fin.2 ++ [.deliverDone], st2.2.2⟩

/-- Environment of one `handle_bilibili` video request: the effective
duration (after page selection) and configured maximum, plus the
outcomes of every external effect along the way. -/
structure HEnv where
  duration : ℕ
  maxDuration : ℕ
  infoSendOk : Bool
  streamsOk : Bool
  videoDlOk : Bool
  audioDlOk : Bool
  muxOk : Bool
  avs : AvsEnv
  exportNoticeOk : Bool
  csvWriteOk : Bool
  csvUploadOk : Bool
  apologySendOk : Bool
  sessdata : Bool

/-- File set, trace and raised-exception flag produced by one handler
stage. -/
structure StageOut where
  files : Finset TmpFile
  trace : List Ev
  raised : Bool
deriving DecidableEq

/-- The `try`/`finally` media pipeline of `handle_bilibili` (source
lines 315-325): both stream downloads are launched together with
`asyncio.gather`, muxing runs only if both succeed, delivery runs only
if muxing succeeds, and the `finally` block removes the two stream
files when they exist.  Modelled from the spec: `download_b_file` and
`merge_file_to_mp4` live in `.bilibili_analysis`, which is not under
`src/`; per spec section 4.1 a failed download leaves a (partial)
destination file for the caller to clean up, and per section 4.3 the
mux creates its single output file exactly on success. -/
def mediaStage (env : HEnv) (files : Finset TmpFile) : StageOut :=
  let files1 := insert .audioM4s (insert .videoM4s files)
  let tr1 : List Ev := [.launchVideoDl, .launchAudioDl,
    .videoDlDone env.videoDlOk, .audioDlDone env.audioDlOk]
  if env.videoDlOk && env.audioDlOk then
    if env.muxOk then
      let files2 := insert .resMp4 files1
      let avsRes := auto_video_send (.localFile .resMp4) env.avs files2
      let u1 := unlink1 .videoM4s avsRes.files
      let u2 := unlink1 .audioM4s u1.1
      ⟨u2.1, tr1 ++ [.muxStart, .muxDone true] ++ avsRes.trace ++ u1.2 ++ u2.2, false⟩
    else
      let u1 := unlink1 .videoM4s files1
      let u2 := unlink1 .audioM4s u1.1
      ⟨u2.1, tr1 ++ [.muxStart, .muxDone false] ++ u1.2 ++ u2.2, true⟩
  else
    let u1 := unlink1 .videoM4s files1
    let u2 := unlink1 .audioM4s u1.1
    ⟨u2.1, tr1 ++ u1.2 ++ u2.2, true⟩

/-- The comment/danmaku export block of `handle_bilibili` (source lines
327-334): send the progress notice, build the CSV, upload it, delete
it; any exception is caught and answered with an apology message (which
itself may raise and then propagates out of the handler). -/
def exportStage (env : HEnv) (files : Finset TmpFile) : StageOut :=
  let inner : StageOut :=
    if env.exportNoticeOk then
      let files1 := insert .csvF files
      if env.csvWriteOk then
        if env.csvUploadOk then
          ⟨files1.erase .csvF,
            [.sendExportNotice, .csvCreated, .csvUploaded, .unlink .csvF], false⟩
        else ⟨files1, [.sendExportNotice, .csvCreated], true⟩
      else ⟨files1, [.sendExportNotice, .csvCreated], true⟩
    else ⟨files, [.sendExportNotice], true⟩
  if inner.raised then
    ⟨inner.files, inner.trace ++ [.sendApology], !env.apologySendOk⟩
  else inner

/-- Final result of one video request. -/
structure HRes where
  files : Finset TmpFile
  trace : List Ev
  raised : Bool
deriving DecidableEq

/-- The video branch of `handle_bilibili` (source lines 276-340), after
the video id has been extracted and the metadata fetched: if the
effective duration exceeds the maximum only the too-long notice is sent
for the media pipeline, otherwise the info message is sent and the
media pipeline runs; in both cases control then reaches the export
block, and finally the AI summary when a session token is configured. -/
def handleVideo (env : HEnv) (files : Finset TmpFile) : HRes :=
  if env.duration > env.maxDuration then
    if env.infoSendOk then
      let r := exportStage env files
      if r.raised then ⟨r.files, .sendTooLong :: r.trace, true⟩
      else ⟨r.files, .sendTooLong :: (r.trace ++ if env.sessdata then [.aiSummary] else []),
        false⟩
    else ⟨files, [.sendTooLong], true⟩
  else
    if env.infoSendOk then
      if env.streamsOk then
        let m := mediaStage env files
        if m.raised then ⟨m.files, .sendInfo :: m.trace, true⟩
        else
          let r := exportStage env m.files
          if r.raised then ⟨r.files, .sendInfo :: (m.trace ++ r.trace), true⟩
          else ⟨r.files,
            .sendInfo :: (m.trace ++ r.trace ++ if env.sessdata then [.aiSummary] else []),
            false⟩
      else ⟨files, [.sendInfo], true⟩
    else ⟨files, [.sendInfo], true⟩

/-- Events belonging to the media (download/mux/delivery) pipeline,
including deletions of its files. -/
def isMediaEv : Ev → Bool
  | .launchVideoDl | .launchAudioDl | .videoDlDone _ | .audioDlDone _
  | .muxStart | .muxDone _ | .deliverStart | .deliverDone | .fetchRemote _
  | .sendOversizeNotice | .uploadVideoFile | .sendInlineVideo | .deliverCaught => true
  | .unlink f => !(f == .csvF)
  | _ => false

/-- Events belonging to the comment/danmaku export. -/
def isExportEv : Ev → Bool
  | .sendExportNotice | .csvCreated | .csvUploaded | .sendApology => true
  | .unlink f => f == .csvF
  | _ => false

/-- Delivery environment in which every effect succeeds: all sends and
the upload work, a thumbnail sidecar appears, and the artifact is 1000
bytes (well under the threshold). -/
def avsEnvOk : AvsEnv := ⟨.ok, true, true, true, true, 1000⟩

/-- Delivery environment whose remote fetch fails mid-stream. -/
def avsEnvFetchMid : AvsEnv := ⟨.failMid, true, true, true, false, 0⟩

/-- Fully successful request environment: 300 s video against a 480 s
maximum, every external effect succeeding. -/
def envAllOk : HEnv := ⟨300, 480, true, true, true, true, true, avsEnvOk, true, true, true,
  true, false⟩

/-- Request environment where everything succeeds except that the CSV
upload raises. -/
def envCsvUploadFail : HEnv := ⟨300, 480, true, true, true, true, true, avsEnvOk, true, true,
  false, true, false⟩

/-- Request environment whose video stream download fails. -/
def envVideoDlFail : HEnv := ⟨300, 480, true, true, false, true, true, avsEnvOk, true, true,
  true, true, false⟩

/-- Request environment for a 700 s video against a 480 s maximum, all
effects succeeding. -/
def envTooLong : HEnv := ⟨700, 480, true, true, true, true, true, avsEnvOk, true, true, true,
  true, false⟩

/-! ### Message routing of `handle_bilibili` (trigger regex and URL branches) -/

/-- Python `str.strip()` on a character list. -/
def pyStrip (s : List Char) : List Char :=
  (((s.dropWhile Char.isWhitespace).reverse).dropWhile Char.isWhitespace).reverse

/-- Literal prefix test: `litHead p s` holds when `p` is an exact
prefix of `s` (Python substring semantics, no regex wildcards). -/
def litHead : List Char → List Char → Bool
  | [], _ => true
  | _ :: _, [] => false
  | p :: ps, c :: cs => p == c && litHead ps cs

/-- Python `pat in s` substring test. -/
def litSearch (ps : List Char) : List Char → Bool
  | [] => litHead ps []
  | s@(_ :: cs) => litHead ps s || litSearch ps cs

/-- Prefix match of a regex literal where `.` is the wildcard
matching any character (as in the unescaped dots of the trigger
pattern). -/
def patHead : List Char → List Char → Bool
  | [], _ => true
  | _ :: _, [] => false
  | p :: ps, c :: cs => (p == '.' || p == c) && patHead ps cs

/-- `re.search` of a wildcard literal: some position of `s` matches. -/
def patSearch (ps : List Char) : List Char → Bool
  | [] => patHead ps []
  | s@(_ :: cs) => patHead ps s || patSearch ps cs

/-- Full-string match of `^BV[0-9a-zA-Z]{10}$`, the anchored
alternative of the `on_regex` trigger (source line 201). -/
def bvFull (s : List Char) : Bool :=
  match s with
  | 'B' :: 'V' :: rest => rest.length == 10 && rest.all Char.isAlphanum
  | _ => false

/-- Full-string match of `^BV[1-9a-zA-Z]{10}$`, the expansion pattern
of `handle_bilibili` (source line 210); note that it excludes the
digit `0`. -/
def bvStrict (s : List Char) : Bool :=
  match s with
  | 'B' :: 'V' :: rest => rest.length == 10 && rest.all (fun c => c.isAlphanum && !(c == '0'))
  | _ => false

/-- The `on_regex` trigger (source lines 200-202):
`(bilibili.com|b23.tv|bili2233.cn|^BV[0-9a-zA-Z]{10}$)` searched in the
message, with the regex dots as wildcards. -/
def triggerMatch (s : String) : Bool :=
  patSearch "bilibili.com".toList s.toList || patSearch "b23.tv".toList s.toList
    || patSearch "bili2233.cn".toList s.toList || bvFull s.toList

/-- Character class `[A-Za-z\d._?%&+\-=\/#]` of `url_reg`
(source line 207). -/
def urlRegTail (c : Char) : Bool :=
  c.isAlphanum || c == '.' || c == '_' || c == '?' || c == '%' || c == '&' || c == '+'
    || c == '-' || c == '=' || c == '/' || c == '#'

/-- Continuation of `url_reg` after the scheme part:
`(space|www|live).bilibili.com\/[A-Za-z\d._?%&+\-=\/#]*` (the dots are
wildcards); returns the full matched text. -/
def urlRegAfterScheme (pre s : List Char) : Option (List Char) :=
  let tryMid := fun (m : List Char) =>
    if s.take m.length = m then
      match s.drop m.length with
      | c1 :: s3 =>
        if s3.take 8 = "bilibili".toList then
          match s3.drop 8 with
          | c2 :: s5 =>
            if s5.take 3 = "com".toList then
              match s5.drop 3 with
              | '/' :: s7 =>
                some (pre ++ m ++ c1 :: ("bilibili".toList
                  ++ c2 :: ("com".toList ++ '/' :: s7.takeWhile urlRegTail)))
              | _ => none
            else none
          | [] => none
        else none
      | [] => none
    else none
  match tryMid "space".toList with
  | some r => some r
  | none =>
    match tryMid "www".toList with
    | some r => some r
    | none => tryMid "live".toList

/-- Match of `url_reg` (source line 207) at one position.  Note the raw
pattern `(http:|https:)\\/\/...` requires a literal backslash after the
scheme colon, so ordinary URLs never match it. -/
def urlRegAt (s : List Char) : Option (List Char) :=
  if s.take 8 = "http:\\//".toList then urlRegAfterScheme "http:\\//".toList (s.drop 8)
  else if s.take 9 = "https:\\//".toList then urlRegAfterScheme "https:\\//".toList (s.drop 9)
  else none

/-- `re.search(url_reg, url)` (source line 218): first matching
position, if any. -/
def urlRegSearch : List Char → Option (List Char)
  | [] => none
  | s@(_ :: rest) =>
    match urlRegAt s with
    | some r => some r
    | none => urlRegSearch rest

/-- `re.search(r'\/(\d+)', s)` (source line 239): first `/` followed by
at least one digit; returns the digit run. -/
def findSlashDigits : List Char → Option (List Char)
  | [] => none
  | '/' :: rest =>
    let ds := rest.takeWhile Char.isDigit
    if ds.isEmpty then findSlashDigits rest else some ds
  | _ :: rest => findSlashDigits rest

/-- `re.search(r'read\/cv(\d+)', s)` (source line 248). -/
def findReadCv : List Char → Option (List Char)
  | [] => none
  | s@(_ :: rest) =>
    if s.take 7 = "read/cv".toList then
      let ds := (s.drop 7).takeWhile Char.isDigit
      if ds.isEmpty then findReadCv rest else some ds
    else findReadCv rest

/-- `re.search(r'favlist\?fid=(\d+)', s)` (source line 262). -/
def findFavFid : List Char → Option (List Char)
  | [] => none
  | s@(_ :: rest) =>
    if s.take 12 = "favlist?fid=".toList then
      let ds := (s.drop 12).takeWhile Char.isDigit
      if ds.isEmpty then findFavFid rest else some ds
    else findFavFid rest

/-- `re.search(r"video\/([^\\/ ]+)", url)` (source line 271): `video/`
followed by a maximal nonempty run of characters other than backslash,
slash and space. -/
def findVideoId : List Char → Option (List Char)
  | [] => none
  | s@(_ :: rest) =>
    if s.take 6 = "video/".toList then
      let ds := (s.drop 6).takeWhile (fun c => !(c == '\\' || c == '/' || c == ' '))
      if ds.isEmpty then findVideoId rest else some ds
    else findVideoId rest

/-- Which branch of `handle_bilibili` a message reaches. -/
inductive PreOutcome where
  | shortLink
  | dynamicBranch
  | liveBranch (roomId : String)
  | liveRaise
  | readBranch (cvId : String)
  | readRaise
  | favBranch (fid : String)
  | favRaise
  | earlyReturn
  | videoBranch (videoId : String)
deriving DecidableEq

/-- Routing prefix of `handle_bilibili` (source lines 206-274): strip
the message, expand a bare strict BV id to a full video URL, then walk
the branch chain.  The short-link branch resolves a redirect over the
network and is kept opaque (`shortLink`); `liveRaise`, `readRaise` and
`favRaise` model the `AttributeError` raised when the branch regex
finds no match and `.group`/`[0]` is taken on `None`; `earlyReturn` is
the silent `return` at line 273 when no video id is found. -/
def preRoute (msg : String) (sessdata : Bool) : PreOutcome :=
  let u0 := pyStrip msg.toList
  let u1 := if bvStrict u0 then "https://www.bilibili.com/video/".toList ++ u0 else u0
  if litSearch "b23.tv".toList u1 || litSearch "bili2233.cn".toList u1
      || litSearch "QQ小程序".toList u1 then .shortLink
  else
    let u2 := match urlRegSearch u1 with
      | some m => m
      | none => u1
    if (litSearch "t.bilibili.com".toList u2 || litSearch "/opus".toList u2) && sessdata then
      .dynamicBranch
    else if litSearch "live".toList u2 then
      match findSlashDigits (u2.takeWhile (fun c => !(c == '?'))) with
      | some roomId => .liveBranch (String.mk roomId)
      | none => .liveRaise
    else if litSearch "read".toList u2 then
      match findReadCv u2 with
      | some cv => .readBranch (String.mk cv)
      | none => .readRaise
    else if litSearch "favlist".toList u2 && sessdata then
      match findFavFid u2 with
      | some fid => .favBranch (String.mk fid)
      | none => .favRaise
    else
      match findVideoId u2 with
      | some vid => .videoBranch (String.mk vid)
      | none => .earlyReturn
theorem zlf_nil_left (ys : List String) :
    zipLongestFill [] ys = ys.map (fun y => ("", y)) := by
  induction ys with
  | nil => simp [zipLongestFill]
  | cons y ys ih => simp [zipLongestFill, ih]

theorem zlf_nil_right (xs : List String) :
    zipLongestFill xs [] = xs.map (fun x => (x, "")) := by
  induction xs with
  | nil => simp [zipLongestFill]
  | cons x xs ih => simp [zipLongestFill, ih]

theorem zipLongestFill_length (xs ys : List String) :
    (zipLongestFill xs ys).length = max xs.length ys.length := by
  induction xs generalizing ys with
  | nil => rw [zlf_nil_left]; simp
  | cons x xs ih =>
    cases ys with
    | nil => rw [zlf_nil_right]; simp
    | cons y ys => simp [zipLongestFill, ih]; omega

theorem zlf_fst_pad (xs ys : List String) (i : ℕ) (h : xs.length ≤ i) :
    ((zipLongestFill xs ys).getD i ("", "")).1 = "" := by
  induction xs generalizing ys i with
  | nil =>
    rw [zlf_nil_left]
    induction ys generalizing i with
    | nil => simp
    | cons y ys ihy =>
      cases i with
      | zero => simp
      | succ j => simp
  | cons x xs ih =>
    cases i with
    | zero => simp at h
    | succ j =>
      cases ys with
      | nil => simpa [zipLongestFill] using ih [] j (by simpa using h)
      | cons y ys => simpa [zipLongestFill] using ih ys j (by simpa using h)

theorem zlf_snd_pad (xs ys : List String) (i : ℕ) (h : ys.length ≤ i) :
    ((zipLongestFill xs ys).getD i ("", "")).2 = "" := by
  induction ys generalizing xs i with
  | nil =>
    rw [zlf_nil_right]
    induction xs generalizing i with
    | nil => simp
    | cons x xs ihx =>
      cases i with
      | zero => simp
      | succ j => simp
  | cons y ys ih =>
    cases i with
    | zero => simp at h
    | succ j =>
      cases xs with
      | nil => simpa [zipLongestFill] using ih [] j (by simpa using h)
      | cons x xs => simpa [zipLongestFill] using ih xs j (by simpa using h)

theorem effDur_in_range (k : ℤ) (ps : List (Option ℕ)) (dur : ℕ)
    (h1 : 1 ≤ k) (hk : k ≤ ps.length) :
    effectiveDuration (some k) (some ps) dur
      = some (((ps.get? (k - 1).toNat).getD none).getD dur) := by
  have h0 : (0:ℤ) ≤ k - 1 := by omega
  have hlt : k - 1 < (ps.length : ℤ) := by omega
  have hlt' : (k - 1).toNat < ps.length := by omega
  simp only [effectiveDuration, pageNumOf, Option.getD_some, pyListGet, if_pos h0, if_pos hlt]
  cases hg : ps.get? (k - 1).toNat with
  | none => exact absurd (List.get?_eq_none.mp hg) (by omega)
  | some d => simp [hg]

theorem effDur_out_of_range (k : ℤ) (ps : List (Option ℕ)) (dur : ℕ)
    (hk : (ps.length : ℤ) < k) :
    effectiveDuration (some k) (some ps) dur = some dur := by
  simp only [effectiveDuration, pageNumOf, Option.getD_some]
  rw [if_neg (by omega)]

theorem commentsLoop_junk (env : List (Option CommentPage)) (junk : List (Option CommentPage))
    (c : ℕ) (a : List String) :
    commentsLoop (env ++ none :: junk) c a = commentsLoop (env ++ [none]) c a := by
  induction env generalizing c a with
  | nil => simp [commentsLoop]
  | cons h t ih =>
    cases h with
    | none => simp [commentsLoop]
    | some pg =>
      simp only [List.cons_append, commentsLoop]
      split
      · rfl
      · split
        · rfl
        · split
          · rfl
          · exact ih _ _

theorem comments_one_page (pg : CommentPage) (rest : List (Option CommentPage))
    (hne : pg.replies ≠ []) (hmore : ¬ pg.count ≤ pg.num * pg.size) :
    get_comments_list_async (some pg :: none :: rest) = processReplies pg.replies := by
  simp only [get_comments_list_async, commentsLoop]
  rw [if_neg (by simp [maxComments]), if_neg (by simp [List.isEmpty_iff, hne]), if_neg hmore]
  split <;> simp

theorem unlink1_files (f : TmpFile) (s : Finset TmpFile) : (unlink1 f s).1 = s.erase f := by
  unfold unlink1
  split
  · rfl
  · simp [Finset.erase_eq_of_not_mem ‹_›]

theorem thumb_ne (f : TmpFile) : TmpFile.thumb f ≠ f := by
  induction f with
  | thumb g ih => exact fun h => ih (by injection h)
  | videoM4s => exact fun h => nomatch h
  | audioM4s => exact fun h => nomatch h
  | resMp4 => exact fun h => nomatch h
  | dlTmp => exact fun h => nomatch h
  | csvF => exact fun h => nomatch h

theorem erase_insert_erase (t f : TmpFile) (F : Finset TmpFile) :
    (((insert t F).erase f).erase t) = (F.erase f).erase t := by
  ext x
  simp only [Finset.mem_erase, Finset.mem_insert]
  constructor
  · rintro ⟨hxt, hxf, hx⟩
    exact ⟨hxt, hxf, hx.resolve_left hxt⟩
  · rintro ⟨hxt, hxf, hx⟩
    exact ⟨hxt, hxf, Or.inr hx⟩

theorem avsPhase2_files_cases (env : AvsEnv) (f1 : Finset TmpFile) (f : TmpFile)
    (r : Bool) :
    (avsPhase2 env f1 (some f) r).1 = f1
      ∨ (avsPhase2 env f1 (some f) r).1 = insert (.thumb f) f1 := by
  cases r <;> by_cases hm : f ∈ f1 <;>
    by_cases hsz : get_file_size_mb env.sizeBytes > (VIDEO_MAX_MB : ℚ) <;>
    cases hn : env.noticeSendOk <;> cases ht : env.thumbCreated <;>
    simp [avsPhase2, hm, hsz, hn, ht]

theorem avsFinally_files (f : TmpFile) (f2 : Finset TmpFile) :
    (avsFinally (some f) f2).1 = (f2.erase f).erase (.thumb f) := by
  unfold avsFinally
  simp [unlink1_files]

theorem avs_local_files (env : AvsEnv) (files : Finset TmpFile) (f : TmpFile) :
    (auto_video_send (.localFile f) env files).files = (files.erase f).erase (.thumb f) := by
  show (avsFinally (some f) (avsPhase2 env files (some f) false).1).1 = _
  rcases avsPhase2_files_cases env files f false with h | h <;>
    rw [avsFinally_files, h]
  exact erase_insert_erase _ _ _

theorem avs_remote_files (env : AvsEnv) (files : Finset TmpFile) :
    (auto_video_send .remoteUrl env files).files =
      (match env.fetch with
       | .ok => (files.erase .dlTmp).erase (.thumb .dlTmp)
       | .failMid => insert .dlTmp files
       | .failConnect => files) := by
  cases hf : env.fetch with
  | ok =>
    simp only [auto_video_send, avsPhase1, hf]
    rcases avsPhase2_files_cases env (insert .dlTmp files) .dlTmp false with h | h
    · rw [avsFinally_files, h, Finset.erase_insert_eq_erase]
    · rw [avsFinally_files, h, erase_insert_erase, Finset.erase_insert_eq_erase]
  | failMid =>
    simp only [auto_video_send, avsPhase1, hf]
    simp [avsPhase2, avsFinally]
  | failConnect =>
    simp only [auto_video_send, avsPhase1, hf]
    simp [avsPhase2, avsFinally]

theorem avs_remote_failMid_caught (env : AvsEnv) (files : Finset TmpFile)
    (h : env.fetch = .failMid) :
    (auto_video_send .remoteUrl env files).caught = true
      ∧ Ev.deliverCaught ∈ (auto_video_send .remoteUrl env files).trace := by
  simp only [auto_video_send, avsPhase1, h]
  simp [avsPhase2, avsFinally]

theorem mediaStage_files_empty (env : HEnv) : (mediaStage env ∅).files = ∅ := by
  unfold mediaStage
  simp only [avs_local_files, unlink1_files]
  split_ifs <;> dsimp only <;> decide

theorem exportStage_files_sub (env : HEnv) (files : Finset TmpFile) :
    (exportStage env files).files ⊆ insert .csvF files := by
  unfold exportStage
  split_ifs <;> dsimp only <;>
    first
      | exact Finset.erase_subset _ _
      | exact subset_rfl
      | exact Finset.subset_insert _ _

theorem exportStage_files_success (env : HEnv) (h1 : env.csvWriteOk = true)
    (h2 : env.csvUploadOk = true) : (exportStage env ∅).files = ∅ := by
  unfold exportStage
  split_ifs <;> dsimp only <;> first | decide | simp_all

theorem exportStage_trace_no_media (env : HEnv) (files : Finset TmpFile) :
    ∀ e ∈ (exportStage env files).trace, isMediaEv e = false := by
  unfold exportStage
  split_ifs <;> simp [isMediaEv]

theorem exportStage_trace_head (env : HEnv) (files : Finset TmpFile) :
    ∃ rest, (exportStage env files).trace = Ev.sendExportNotice :: rest := by
  unfold exportStage
  split_ifs <;> simp

theorem exportStage_csvCreated (env : HEnv) (files : Finset TmpFile)
    (h : env.exportNoticeOk = true) :
    Ev.csvCreated ∈ (exportStage env files).trace := by
  unfold exportStage
  split_ifs <;> dsimp only <;> simp_all

theorem thumb_beq_csvF (f : TmpFile) : (TmpFile.thumb f == TmpFile.csvF) = false := by
  rw [beq_eq_false_iff_ne]
  exact fun h => nomatch h

theorem avsPhase2_trace_no_export (env : AvsEnv) (f1 : Finset TmpFile)
    (dp : Option TmpFile) (r : Bool) :
    ∀ e ∈ (avsPhase2 env f1 dp r).2.1, isExportEv e = false := by
  unfold avsPhase2
  rcases dp with _ | f
  · split_ifs <;> simp [isExportEv]
  · by_cases hm : f ∈ f1 <;> split_ifs <;> simp [isExportEv, hm]

theorem avsFinally_trace_no_export (f : TmpFile) (f2 : Finset TmpFile)
    (hf : f ≠ .csvF) :
    ∀ e ∈ (avsFinally (some f) f2).2, isExportEv e = false := by
  have hb : (f == TmpFile.csvF) = false := by rwa [beq_eq_false_iff_ne]
  simp only [avsFinally, unlink1]
  split_ifs <;> simp [isExportEv, hb, thumb_beq_csvF]

theorem mem_ite_list {α : Type} {c : Prop} [Decidable c] {e : α} {a b : List α}
    (h : e ∈ if c then a else b) : e ∈ a ∨ e ∈ b := by
  split at h
  · exact Or.inl h
  · exact Or.inr h

theorem unlink1_mem {e : Ev} (g : TmpFile) (s : Finset TmpFile)
    (h : e ∈ (unlink1 g s).2) : e = Ev.unlink g := by
  unfold unlink1 at h
  split at h
  · simpa using h
  · simp at h

theorem avs_trace_decomp (input : AvsInput) (env : AvsEnv) (files : Finset TmpFile) :
    ∃ mid, (auto_video_send input env files).trace
      = Ev.deliverStart :: (mid ++ [Ev.deliverDone]) := by
  refine ⟨(avsPhase1 input env files).2.1
      ++ ((avsPhase2 env (avsPhase1 input env files).1 (avsPhase1 input env files).2.2.1
            (avsPhase1 input env files).2.2.2).2.1
      ++ ((if (avsPhase2 env (avsPhase1 input env files).1 (avsPhase1 input env files).2.2.1
            (avsPhase1 input env files).2.2.2).2.2 then [Ev.deliverCaught] else [])
      ++ (avsFinally (avsPhase1 input env files).2.2.1
            (avsPhase2 env (avsPhase1 input env files).1 (avsPhase1 input env files).2.2.1
              (avsPhase1 input env files).2.2.2).1).2)), ?_⟩
  simp [auto_video_send]

theorem avs_trace_no_export (env : AvsEnv) (files : Finset TmpFile) (f : TmpFile)
    (hf : f ≠ .csvF) :
    ∀ e ∈ (auto_video_send (.localFile f) env files).trace, isExportEv e = false := by
  intro e he
  simp only [auto_video_send, avsPhase1, List.nil_append, List.append_assoc, List.cons_append,
    List.mem_cons, List.mem_append, List.mem_singleton, List.not_mem_nil, or_false] at he
  rcases he with rfl | he
  · rfl
  rcases he with he | he
  · exact avsPhase2_trace_no_export env files (some f) false e he
  rcases he with he | he
  · rcases mem_ite_list he with h | h
    · simp at h; subst h; rfl
    · simp at h
  rcases he with he | rfl
  · exact avsFinally_trace_no_export f _ hf e he
  · rfl

theorem mediaStage_raised (env : HEnv) (files : Finset TmpFile) :
    (mediaStage env files).raised = !(env.videoDlOk && env.audioDlOk && env.muxOk) := by
  unfold mediaStage
  cases hv : env.videoDlOk <;> cases ha : env.audioDlOk <;> cases hm : env.muxOk <;>
    simp [hv, ha, hm]

theorem mediaStage_trace_no_export (env : HEnv) (files : Finset TmpFile) :
    ∀ e ∈ (mediaStage env files).trace, isExportEv e = false := by
  intro e he
  unfold mediaStage at he
  split_ifs at he <;>
    simp only [List.append_assoc, List.cons_append, List.nil_append, List.mem_append,
      List.mem_cons, List.not_mem_nil, or_false] at he
  · rcases he with rfl | rfl | rfl | rfl | rfl | rfl | he | he | he
    · rfl
    · rfl
    · rfl
    · rfl
    · rfl
    · rfl
    · exact avs_trace_no_export env.avs _ .resMp4 (fun h => nomatch h) e he
    · rw [unlink1_mem _ _ he]; rfl
    · rw [unlink1_mem _ _ he]; rfl
  · rcases he with rfl | rfl | rfl | rfl | rfl | rfl | he | he
    · rfl
    · rfl
    · rfl
    · rfl
    · rfl
    · rfl
    · rw [unlink1_mem _ _ he]; rfl
    · rw [unlink1_mem _ _ he]; rfl
  · rcases he with rfl | rfl | rfl | rfl | he | he
    · rfl
    · rfl
    · rfl
    · rfl
    · rw [unlink1_mem _ _ he]; rfl
    · rw [unlink1_mem _ _ he]; rfl

theorem handleVideo_tooLong_info (env : HEnv) (files : Finset TmpFile)
    (hd : env.duration > env.maxDuration) (hi : env.infoSendOk = true) :
    ∃ tail, (handleVideo env files).trace = Ev.sendTooLong :: tail
      ∧ (∀ e ∈ tail, isMediaEv e = false)
      ∧ Ev.sendExportNotice ∈ tail
      ∧ (env.exportNoticeOk = true → Ev.csvCreated ∈ tail) := by
  have hnm := exportStage_trace_no_media env files
  have hcsv := fun h => exportStage_csvCreated env files h
  obtain ⟨rest, hrest⟩ := exportStage_trace_head env files
  rcases hx : exportStage env files with ⟨xf, xt, xe⟩
  rw [hx] at hnm hrest hcsv
  try dsimp only at hnm hrest hcsv
  unfold handleVideo
  rw [if_pos hd, if_pos hi, hx]
  dsimp only
  cases xe
  · refine ⟨xt ++ (if env.sessdata then [Ev.aiSummary] else []), by simp, ?_, ?_, ?_⟩
    · intro e he
      rcases List.mem_append.mp he with h | h
      · exact hnm e h
      · rcases mem_ite_list h with h' | h'
        · simp at h'; subst h'; rfl
        · simp at h'
    · exact List.mem_append.mpr (Or.inl (by rw [hrest]; exact List.mem_cons_self _ _))
    · exact fun h => List.mem_append.mpr (Or.inl (hcsv h))
  · exact ⟨xt, by simp, hnm, by rw [hrest]; exact List.mem_cons_self _ _, hcsv⟩

theorem handleVideo_tooLong_noInfo (env : HEnv) (files : Finset TmpFile)
    (hd : env.duration > env.maxDuration) (hi : env.infoSendOk = false) :
    (handleVideo env files).trace = [Ev.sendTooLong]
      ∧ (handleVideo env files).raised = true := by
  unfold handleVideo
  rw [if_pos hd]
  simp [hi]

theorem handleVideo_noMedia (env : HEnv) (files : Finset TmpFile)
    (hd : ¬ env.duration > env.maxDuration)
    (h : env.infoSendOk = false ∨ env.streamsOk = false) :
    (handleVideo env files).trace = [Ev.sendInfo]
      ∧ (handleVideo env files).raised = true := by
  unfold handleVideo
  rw [if_neg hd]
  rcases h with h | h
  · simp [h]
  · cases hi : env.infoSendOk <;> simp [h, hi]

theorem handleVideo_mediaFail (env : HEnv) (files : Finset TmpFile)
    (hd : ¬ env.duration > env.maxDuration) (hi : env.infoSendOk = true)
    (hs : env.streamsOk = true) (hr : (mediaStage env files).raised = true) :
    (handleVideo env files).trace = Ev.sendInfo :: (mediaStage env files).trace
      ∧ (handleVideo env files).raised = true := by
  unfold handleVideo
  rw [if_neg hd, if_pos hi, if_pos hs]
  simp [hr]

theorem handleVideo_mediaOk (env : HEnv) (files : Finset TmpFile)
    (hd : ¬ env.duration > env.maxDuration) (hi : env.infoSendOk = true)
    (hs : env.streamsOk = true) (hr : (mediaStage env files).raised = false) :
    ∃ tail, (handleVideo env files).trace
        = Ev.sendInfo :: ((mediaStage env files).trace ++ tail)
      ∧ (∀ e ∈ tail, isMediaEv e = false)
      ∧ Ev.sendExportNotice ∈ tail := by
  have hnm := exportStage_trace_no_media env (mediaStage env files).files
  obtain ⟨rest, hrest⟩ := exportStage_trace_head env (mediaStage env files).files
  rcases hx : exportStage env (mediaStage env files).files with ⟨xf, xt, xe⟩
  rw [hx] at hnm hrest
  try dsimp only at hnm hrest
  unfold handleVideo
  rw [if_neg hd, if_pos hi, if_pos hs]
  simp only [hr, Bool.false_eq_true, if_false, hx]
  try dsimp only
  cases xe
  · refine ⟨xt ++ (if env.sessdata then [Ev.aiSummary] else []), by simp, ?_, ?_⟩
    · intro e he
      rcases List.mem_append.mp he with h | h
      · exact hnm e h
      · rcases mem_ite_list h with h' | h'
        · simp at h'; subst h'; rfl
        · simp at h'
    · exact List.mem_append.mpr (Or.inl (by rw [hrest]; exact List.mem_cons_self _ _))
  · exact ⟨xt, by simp, hnm, by rw [hrest]; exact List.mem_cons_self _ _⟩

theorem unlink1_trace_pos (f : TmpFile) (s : Finset TmpFile) (h : f ∈ s) :
    (unlink1 f s).2 = [Ev.unlink f] := by
  simp [unlink1, h]

theorem mediaStage_trace_ok (env : HEnv) (files : Finset TmpFile)
    (hv : env.videoDlOk = true) (ha : env.audioDlOk = true) (hm : env.muxOk = true) :
    ∃ mid, (mediaStage env files).trace
      = [Ev.launchVideoDl, Ev.launchAudioDl, Ev.videoDlDone true, Ev.audioDlDone true,
          Ev.muxStart, Ev.muxDone true, Ev.deliverStart]
        ++ mid ++ [Ev.deliverDone, Ev.unlink .videoM4s, Ev.unlink .audioM4s] := by
  obtain ⟨mid, hmid⟩ := avs_trace_decomp (.localFile .resMp4) env.avs
    (insert .resMp4 (insert .audioM4s (insert .videoM4s files)))
  refine ⟨mid, ?_⟩
  unfold mediaStage
  simp only [hv, ha, hm, Bool.and_self, if_true]
  have hv1 : TmpFile.videoM4s ∈
      (((insert TmpFile.resMp4 (insert TmpFile.audioM4s (insert TmpFile.videoM4s files))).erase
        TmpFile.resMp4).erase (TmpFile.thumb TmpFile.resMp4)) := by simp
  have ha1 : TmpFile.audioM4s ∈
      ((((insert TmpFile.resMp4 (insert TmpFile.audioM4s (insert TmpFile.videoM4s files))).erase
        TmpFile.resMp4).erase (TmpFile.thumb TmpFile.resMp4)).erase TmpFile.videoM4s) := by simp
  rw [avs_local_files, hmid, unlink1_files, unlink1_trace_pos _ _ hv1,
    unlink1_trace_pos _ _ ha1]
  simp

theorem mediaStage_trace_muxFail (env : HEnv) (files : Finset TmpFile)
    (hv : env.videoDlOk = true) (ha : env.audioDlOk = true) (hm : env.muxOk = false) :
    (mediaStage env files).trace
      = [Ev.launchVideoDl, Ev.launchAudioDl, Ev.videoDlDone true, Ev.audioDlDone true,
          Ev.muxStart, Ev.muxDone false, Ev.unlink .videoM4s, Ev.unlink .audioM4s] := by
  unfold mediaStage
  simp only [hv, ha, hm, Bool.and_self, if_true, Bool.false_eq_true, if_false]
  have hv1 : TmpFile.videoM4s ∈ insert TmpFile.audioM4s (insert TmpFile.videoM4s files) := by
    simp
  have ha1 : TmpFile.audioM4s ∈
      (insert TmpFile.audioM4s (insert TmpFile.videoM4s files)).erase TmpFile.videoM4s := by
    simp
  rw [unlink1_files, unlink1_trace_pos _ _ hv1, unlink1_trace_pos _ _ ha1]
  simp

theorem mediaStage_trace_dlFail (env : HEnv) (files : Finset TmpFile)
    (h : (env.videoDlOk && env.audioDlOk) = false) :
    (mediaStage env files).trace
      = [Ev.launchVideoDl, Ev.launchAudioDl, Ev.videoDlDone env.videoDlOk,
          Ev.audioDlDone env.audioDlOk, Ev.unlink .videoM4s, Ev.unlink .audioM4s] := by
  unfold mediaStage
  simp only [h, Bool.false_eq_true, if_false]
  have hv1 : TmpFile.videoM4s ∈ insert TmpFile.audioM4s (insert TmpFile.videoM4s files) := by
    simp
  have ha1 : TmpFile.audioM4s ∈
      (insert TmpFile.audioM4s (insert TmpFile.videoM4s files)).erase TmpFile.videoM4s := by
    simp
  rw [unlink1_files, unlink1_trace_pos _ _ hv1, unlink1_trace_pos _ _ ha1]
  simp

theorem no_media_not_mem {tail : List Ev} (h : ∀ e ∈ tail, isMediaEv e = false)
    {e : Ev} (he : isMediaEv e = true) : e ∉ tail :=
  fun hm => by rw [h e hm] at he; cases he

theorem sublist_cons_append {l p rest : List Ev} (a : Ev) (h : List.Sublist l p) :
    List.Sublist l (a :: (p ++ rest)) :=
  (h.trans (List.sublist_append_left p rest)).cons a

/-- Claim C4: the two stream downloads are launched together (adjacent
launch events) and awaited jointly, short-circuiting to failure if
either fails (no mux is started and the handler raises); muxing starts
only after both downloads completed successfully; delivery starts only
after muxing completed; and delivery finishes before the cleanup
deletions of the stream files. -/
theorem pipeline_order (env : HEnv) :
    (Ev.launchVideoDl ∈ (handleVideo env ∅).trace →
        ∃ p q, (handleVideo env ∅).trace = p ++ [Ev.launchVideoDl, Ev.launchAudioDl] ++ q)
  ∧ ((env.videoDlOk && env.audioDlOk) = false →
        Ev.muxStart ∉ (handleVideo env ∅).trace
      ∧ (Ev.launchVideoDl ∈ (handleVideo env ∅).trace → (handleVideo env ∅).raised = true))
  ∧ (Ev.muxStart ∈ (handleVideo env ∅).trace →
        env.videoDlOk = true ∧ env.audioDlOk = true
      ∧ List.Sublist [Ev.videoDlDone true, Ev.audioDlDone true, Ev.muxStart]
          (handleVideo env ∅).trace)
  ∧ (Ev.deliverStart ∈ (handleVideo env ∅).trace →
        env.muxOk = true
      ∧ List.Sublist [Ev.muxStart, Ev.muxDone true, Ev.deliverStart] (handleVideo env ∅).trace
      ∧ List.Sublist [Ev.deliverStart, Ev.deliverDone, Ev.unlink TmpFile.videoM4s,
          Ev.unlink TmpFile.audioM4s] (handleVideo env ∅).trace) := by
  by_cases hd : env.duration > env.maxDuration
  · by_cases hi : env.infoSendOk = true
    · obtain ⟨tail, htr, hnm, _, _⟩ := handleVideo_tooLong_info env ∅ hd hi
      rw [htr]
      have hmux : Ev.muxStart ∉ Ev.sendTooLong :: tail := by
        intro hmem
        rcases List.mem_cons.mp hmem with h | h
        · exact absurd h (by decide)
        · exact absurd h (no_media_not_mem hnm rfl)
      have hlaunch : Ev.launchVideoDl ∉ Ev.sendTooLong :: tail := by
        intro hmem
        rcases List.mem_cons.mp hmem with h | h
        · exact absurd h (by decide)
        · exact absurd h (no_media_not_mem hnm rfl)
      have hdel : Ev.deliverStart ∉ Ev.sendTooLong :: tail := by
        intro hmem
        rcases List.mem_cons.mp hmem with h | h
        · exact absurd h (by decide)
        · exact absurd h (no_media_not_mem hnm rfl)
      exact ⟨fun h => absurd h hlaunch, fun _ => ⟨hmux, fun h => absurd h hlaunch⟩,
        fun h => absurd h hmux, fun h => absurd h hdel⟩
    · simp only [Bool.not_eq_true] at hi
      obtain ⟨htr, _⟩ := handleVideo_tooLong_noInfo env ∅ hd hi
      rw [htr]
      exact ⟨fun h => absurd h (by decide), fun _ => ⟨by decide, fun h => absurd h (by decide)⟩,
        fun h => absurd h (by decide), fun h => absurd h (by decide)⟩
  · by_cases hi : env.infoSendOk = true
    · by_cases hs : env.streamsOk = true
      · by_cases hva : (env.videoDlOk && env.audioDlOk) = true
        · have hv : env.videoDlOk = true := by
            revert hva; cases env.videoDlOk <;> simp
          have ha : env.audioDlOk = true := by
            revert hva; cases env.audioDlOk <;> simp
          by_cases hm : env.muxOk = true
          · have hraised : (mediaStage env ∅).raised = false := by
              rw [mediaStage_raised]; simp [hv, ha, hm]
            obtain ⟨tail, htr, hnm, _⟩ := handleVideo_mediaOk env ∅ hd hi hs hraised
            obtain ⟨mid, hmt⟩ := mediaStage_trace_ok env ∅ hv ha hm
            rw [htr, hmt]
            simp only [List.append_assoc, List.cons_append, List.nil_append]
            refine ⟨?_, ?_, ?_, ?_⟩
            · intro _
              exact ⟨[Ev.sendInfo], Ev.videoDlDone true :: Ev.audioDlDone true :: Ev.muxStart ::
                Ev.muxDone true :: Ev.deliverStart ::
                  (mid ++ (Ev.deliverDone :: Ev.unlink TmpFile.videoM4s ::
                    Ev.unlink TmpFile.audioM4s :: tail)), by simp⟩
            · intro hflag
              exact absurd hflag (by simp [hv, ha])
            · intro _
              refine ⟨hv, ha, ?_⟩
              refine sublist_cons_append _ (l := [Ev.videoDlDone true, Ev.audioDlDone true,
                Ev.muxStart]) (p := [Ev.launchVideoDl, Ev.launchAudioDl, Ev.videoDlDone true,
                Ev.audioDlDone true, Ev.muxStart, Ev.muxDone true, Ev.deliverStart]) (by decide)
            · intro _
              refine ⟨hm, ?_, ?_⟩
              · exact sublist_cons_append _ (l := [Ev.muxStart, Ev.muxDone true,
                  Ev.deliverStart]) (p := [Ev.launchVideoDl, Ev.launchAudioDl,
                  Ev.videoDlDone true, Ev.audioDlDone true, Ev.muxStart, Ev.muxDone true,
                  Ev.deliverStart]) (by decide)
              · refine List.Sublist.cons _ ?_
                have h1 : List.Sublist [Ev.deliverStart]
                    [Ev.launchVideoDl, Ev.launchAudioDl, Ev.videoDlDone true,
                      Ev.audioDlDone true, Ev.muxStart, Ev.muxDone true, Ev.deliverStart] := by
                  decide
                have h2 : List.Sublist [Ev.deliverDone, Ev.unlink TmpFile.videoM4s,
                    Ev.unlink TmpFile.audioM4s]
                    (mid ++ (Ev.deliverDone :: Ev.unlink TmpFile.videoM4s ::
                      Ev.unlink TmpFile.audioM4s :: tail)) := by
                  refine List.Sublist.trans ?_ (List.sublist_append_right mid _)
                  exact List.sublist_append_left _ tail
                exact List.Sublist.append h1 h2
          · simp only [Bool.not_eq_true] at hm
            have hraised : (mediaStage env ∅).raised = true := by
              rw [mediaStage_raised]; simp [hv, ha, hm]
            obtain ⟨htr, hrs⟩ := handleVideo_mediaFail env ∅ hd hi hs hraised
            rw [htr, mediaStage_trace_muxFail env ∅ hv ha hm]
            refine ⟨?_, ?_, ?_, ?_⟩
            · intro _
              exact ⟨[Ev.sendInfo], [Ev.videoDlDone true, Ev.audioDlDone true, Ev.muxStart,
                Ev.muxDone false, Ev.unlink TmpFile.videoM4s, Ev.unlink TmpFile.audioM4s],
                by simp⟩
            · intro hflag
              exact absurd hflag (by simp [hv, ha])
            · intro _
              exact ⟨hv, ha, by decide⟩
            · intro hmem
              exact absurd hmem (by decide)
        · simp only [Bool.not_eq_true] at hva
          have hraised : (mediaStage env ∅).raised = true := by
            rw [mediaStage_raised]
            revert hva; cases env.videoDlOk <;> cases env.audioDlOk <;> simp
          obtain ⟨htr, hrs⟩ := handleVideo_mediaFail env ∅ hd hi hs hraised
          rw [htr, mediaStage_trace_dlFail env ∅ hva]
          refine ⟨?_, ?_, ?_, ?_⟩
          · intro _
            exact ⟨[Ev.sendInfo], [Ev.videoDlDone env.videoDlOk, Ev.audioDlDone env.audioDlOk,
              Ev.unlink TmpFile.videoM4s, Ev.unlink TmpFile.audioM4s], by simp⟩
          · intro _
            refine ⟨by simp, fun _ => hrs⟩
          · intro hmem
            exact absurd hmem (by simp)
          · intro hmem
            exact absurd hmem (by simp)
      · simp only [Bool.not_eq_true] at hs
        obtain ⟨htr, _⟩ := handleVideo_noMedia env ∅ hd (Or.inr hs)
        rw [htr]
        exact ⟨fun h => absurd h (by decide), fun _ => ⟨by decide, fun h => absurd h (by decide)⟩,
          fun h => absurd h (by decide), fun h => absurd h (by decide)⟩
    · simp only [Bool.not_eq_true] at hi
      obtain ⟨htr, _⟩ := handleVideo_noMedia env ∅ hd (Or.inl hi)
      rw [htr]
      exact ⟨fun h => absurd h (by decide), fun _ => ⟨by decide, fun h => absurd h (by decide)⟩,
        fun h => absurd h (by decide), fun h => absurd h (by decide)⟩

theorem handleVideo_files_char (env : HEnv) :
    (handleVideo env ∅).files = ∅
      ∨ (handleVideo env ∅).files = (exportStage env ∅).files := by
  by_cases hd : env.duration > env.maxDuration
  · by_cases hi : env.infoSendOk = true
    · right
      unfold handleVideo
      rw [if_pos hd, if_pos hi]
      rcases hx : exportStage env ∅ with ⟨xf, xt, xe⟩
      cases xe <;> simp
    · left
      unfold handleVideo
      rw [if_pos hd, if_neg hi]
  · by_cases hi : env.infoSendOk = true
    · by_cases hs : env.streamsOk = true
      · have hmf := mediaStage_files_empty env
        unfold handleVideo
        rw [if_neg hd, if_pos hi, if_pos hs]
        rcases hx : mediaStage env ∅ with ⟨mf, mt, me⟩
        rw [hx] at hmf
        dsimp only at hmf
        subst hmf
        cases me
        · right
          dsimp only
          rcases hy : exportStage env ∅ with ⟨yf, yt, ye⟩
          cases ye <;> simp
        · left
          simp
      · left
        unfold handleVideo
        rw [if_neg hd, if_pos hi, if_neg hs]
    · left
      unfold handleVideo
      rw [if_neg hd, if_neg hi]

/-- Claim C1 (amended): on every exit path of a video request all media
pipeline temporaries (the two stream files, the muxed output and its
thumbnail sidecar) are deleted — the final file set can contain at most
the export CSV — and when the CSV write and upload succeed the file set
returns exactly to its initial (empty) state.  The claim as stated
fails because the CSV leaks when its upload raises. -/
theorem media_files_always_cleaned (env : HEnv) :
    (handleVideo env ∅).files ⊆ {TmpFile.csvF}
  ∧ (env.csvWriteOk = true → env.csvUploadOk = true → (handleVideo env ∅).files = ∅) := by
  constructor
  · rcases handleVideo_files_char env with h | h <;> rw [h]
    · exact Finset.empty_subset _
    · exact Finset.Subset.trans (exportStage_files_sub env ∅) (by decide)
  · intro h1 h2
    rcases handleVideo_files_char env with h | h <;> rw [h]
    exact exportStage_files_success env h1 h2

/-- Claim C3 (amended): the comment/danmaku export runs strictly after
the media pipeline — every trace splits into a media part followed by
an export part, so the two are sequential, not concurrent — and a
failure raised in the media pipeline (download or mux) propagates and
prevents the export from running at all.  Export failures are contained
and cannot affect the already-finished media pipeline. -/
theorem export_after_media (env : HEnv) :
    (∃ t1 t2, (handleVideo env ∅).trace = t1 ++ t2
        ∧ (∀ e ∈ t1, isExportEv e = false)
        ∧ (∀ e ∈ t2, isMediaEv e = false))
  ∧ (¬ env.duration > env.maxDuration → env.infoSendOk = true → env.streamsOk = true →
      (env.videoDlOk && env.audioDlOk && env.muxOk) = false →
      ∀ e ∈ (handleVideo env ∅).trace, isExportEv e = false) := by
  constructor
  · by_cases hd : env.duration > env.maxDuration
    · by_cases hi : env.infoSendOk = true
      · obtain ⟨tail, htr, hnm, _, _⟩ := handleVideo_tooLong_info env ∅ hd hi
        refine ⟨[Ev.sendTooLong], tail, by simp [htr], ?_, hnm⟩
        intro e he
        simp at he
        subst he
        rfl
      · simp only [Bool.not_eq_true] at hi
        obtain ⟨htr, _⟩ := handleVideo_tooLong_noInfo env ∅ hd hi
        refine ⟨[Ev.sendTooLong], [], by simp [htr], ?_, by simp⟩
        intro e he
        simp at he
        subst he
        rfl
    · by_cases hi : env.infoSendOk = true
      · by_cases hs : env.streamsOk = true
        · by_cases hr : (mediaStage env ∅).raised = true
          · obtain ⟨htr, _⟩ := handleVideo_mediaFail env ∅ hd hi hs hr
            refine ⟨Ev.sendInfo :: (mediaStage env ∅).trace, [], by simp [htr], ?_, by simp⟩
            intro e he
            rcases List.mem_cons.mp he with h | h
            · subst h; rfl
            · exact mediaStage_trace_no_export env ∅ e h
          · simp only [Bool.not_eq_true] at hr
            obtain ⟨tail, htr, hnm, _⟩ := handleVideo_mediaOk env ∅ hd hi hs hr
            refine ⟨Ev.sendInfo :: (mediaStage env ∅).trace, tail, by simp [htr], ?_, hnm⟩
            intro e he
            rcases List.mem_cons.mp he with h | h
            · subst h; rfl
            · exact mediaStage_trace_no_export env ∅ e h
        · simp only [Bool.not_eq_true] at hs
          obtain ⟨htr, _⟩ := handleVideo_noMedia env ∅ hd (Or.inr hs)
          refine ⟨[Ev.sendInfo], [], by simp [htr], ?_, by simp⟩
          intro e he
          simp at he
          subst he
          rfl
      · simp only [Bool.not_eq_true] at hi
        obtain ⟨htr, _⟩ := handleVideo_noMedia env ∅ hd (Or.inl hi)
        refine ⟨[Ev.sendInfo], [], by simp [htr], ?_, by simp⟩
        intro e he
        simp at he
        subst he
        rfl
  · intro hd hi hs hflag
    have hraised : (mediaStage env ∅).raised = true := by
      rw [mediaStage_raised, hflag]
      rfl
    obtain ⟨htr, _⟩ := handleVideo_mediaFail env ∅ hd hi hs hraised
    rw [htr]
    intro e he
    rcases List.mem_cons.mp he with h | h
    · subst h; rfl
    · exact mediaStage_trace_no_export env ∅ e h

/-- Claim C5 (amended): when the (page-selected) duration exceeds the
configured maximum no download, mux or delivery event occurs and no
media temporary is created, and the too-long notice is sent; however
the comment/danmaku export still runs, sending its progress message and
creating (then normally deleting) the CSV file. -/
theorem too_long_skips_media (env : HEnv) (hd : env.duration > env.maxDuration) :
    (∀ e ∈ (handleVideo env ∅).trace, isMediaEv e = false)
  ∧ Ev.sendTooLong ∈ (handleVideo env ∅).trace
  ∧ (handleVideo env ∅).files ⊆ {TmpFile.csvF}
  ∧ (env.infoSendOk = true → Ev.sendExportNotice ∈ (handleVideo env ∅).trace
      ∧ (env.exportNoticeOk = true → Ev.csvCreated ∈ (handleVideo env ∅).trace)) := by
  have hfiles : (handleVideo env ∅).files ⊆ {TmpFile.csvF} := by
    rcases handleVideo_files_char env with h | h <;> rw [h]
    · exact Finset.empty_subset _
    · exact Finset.Subset.trans (exportStage_files_sub env ∅) (by decide)
  by_cases hi : env.infoSendOk = true
  · obtain ⟨tail, htr, hnm, hnote, hcsv⟩ := handleVideo_tooLong_info env ∅ hd hi
    rw [htr]
    refine ⟨?_, List.mem_cons_self _ _, hfiles, ?_⟩
    · intro e he
      rcases List.mem_cons.mp he with h | h
      · subst h; rfl
      · exact hnm e h
    · exact fun _ => ⟨List.mem_cons_of_mem _ hnote, fun hx => List.mem_cons_of_mem _ (hcsv hx)⟩
  · simp only [Bool.not_eq_true] at hi
    obtain ⟨htr, _⟩ := handleVideo_tooLong_noInfo env ∅ hd hi
    rw [htr]
    refine ⟨by decide, List.mem_cons_self _ _, hfiles, ?_⟩
    intro hinfo
    rw [hi] at hinfo
    cases hinfo

theorem size1000_not_over : ¬ get_file_size_mb 1000 > (VIDEO_MAX_MB : ℚ) := by
  norm_num [get_file_size_mb, pyRound2, pyRoundInt, VIDEO_MAX_MB]

/-- Claim C1, counterexample: in a run where everything succeeds except
the CSV upload, the handler finishes with the CSV file still present,
so the post-handling file set differs from the pre-handling one. -/
theorem csv_leak_on_upload_failure :
    (handleVideo envCsvUploadFail ∅).files = {TmpFile.csvF}
  ∧ (handleVideo envCsvUploadFail ∅).files ≠ ∅ := by
  have h : (handleVideo envCsvUploadFail ∅).files = {TmpFile.csvF} := by
    simp [handleVideo, mediaStage, exportStage, auto_video_send, avsPhase1, avsPhase2,
      avsFinally, unlink1, envCsvUploadFail, avsEnvOk, size1000_not_over]
    decide
  exact ⟨h, by rw [h]; decide⟩

/-- Claim C2, counterexample: an artifact one byte over the 100 MB
threshold rounds to 100.00 MB and is delivered inline, not in
file-upload mode as the claim states. -/
theorem one_byte_over_rounds_inline :
    get_file_size_mb (100 * 1024 * 1024 + 1) = 100
  ∧ deliveryMode (100 * 1024 * 1024 + 1) = DeliveryMode.inlineMedia
  ∧ deliveryMode (100 * 1024 * 1024 + 1) ≠ DeliveryMode.fileUpload := by
  have h : deliveryMode (100 * 1024 * 1024 + 1) = DeliveryMode.inlineMedia := by
    norm_num [deliveryMode, get_file_size_mb, pyRound2, pyRoundInt, VIDEO_MAX_MB]
  refine ⟨?_, h, ?_⟩
  · norm_num [get_file_size_mb, pyRound2, pyRoundInt]
  · rw [h]
    decide

/-- Upper bound on Python rounding: a rational strictly below `z + 1/2`
rounds (half-to-even) to at most `z`. -/
theorem pyRoundInt_le_of_lt (q : ℚ) (z : ℤ) (h : q < z + 1 / 2) : pyRoundInt q ≤ z := by
  have hf : ⌊q⌋ ≤ z := by
    rw [Int.floor_le_iff]
    linarith
  have hfl : (⌊q⌋ : ℚ) ≤ q := Int.floor_le q
  have hdef : pyRoundInt q
      = if q - ⌊q⌋ < 1 / 2 then ⌊q⌋
        else if 1 / 2 < q - ⌊q⌋ then ⌊q⌋ + 1
        else if ⌊q⌋ % 2 = 0 then ⌊q⌋ else ⌊q⌋ + 1 := rfl
  rw [hdef]
  split_ifs with h1 h2 h3
  · exact hf
  · have hq : (⌊q⌋ : ℚ) < z := by linarith
    have hz : ⌊q⌋ < z := by exact_mod_cast hq
    omega
  · exact hf
  · have heq : q - ⌊q⌋ = 1 / 2 := le_antisymm (not_lt.mp h2) (not_lt.mp h1)
    have hq : (⌊q⌋ : ℚ) < z := by linarith
    have hz : ⌊q⌋ < z := by exact_mod_cast hq
    omega

/-- Every artifact of at most 104862842 bytes is delivered inline: its
size in megabytes rounds to at most 100.00, because
`104862842 * 100 / 1048576 < 10000.5`. -/
theorem deliveryMode_inline_below (n : ℕ) (h : n ≤ 104862842) :
    deliveryMode n = DeliveryMode.inlineMedia := by
  have hn : (n : ℚ) ≤ 104862842 := by exact_mod_cast h
  have hq : (n : ℚ) / (1024 * 1024) * 100 < (10000 : ℤ) + 1 / 2 := by
    rw [div_mul_eq_mul_div, div_lt_iff₀ (by norm_num)]
    push_cast
    linarith
  have hr := pyRoundInt_le_of_lt _ _ hq
  have hle : ¬ (get_file_size_mb n > (VIDEO_MAX_MB : ℚ)) := by
    rw [gt_iff_lt, not_lt]
    unfold get_file_size_mb pyRound2
    rw [div_le_iff₀ (by norm_num : (0:ℚ) < 100)]
    have hc : (pyRoundInt ((n : ℚ) / (1024 * 1024) * 100) : ℚ) ≤ ((10000 : ℤ) : ℚ) := by
      exact_mod_cast hr
    have h100 : (VIDEO_MAX_MB : ℚ) * 100 = ((10000 : ℤ) : ℚ) := by norm_num [VIDEO_MAX_MB]
    rw [h100]
    exact hc
  unfold deliveryMode
  rw [if_neg hle]

/-- Claim C2 (amended): the size is computed in megabytes rounded to
two decimals; an artifact of exactly the threshold is delivered inline;
an artifact one byte over the threshold is ALSO delivered inline (its
rounded size is still 100.00); upload mode is chosen exactly when the
rounded size exceeds the threshold, first at 104862843 bytes (every
size up to 104862842 bytes is inline); and the upload is preceded by
the user-visible oversize notice. -/
theorem size_threshold_rounding :
    get_file_size_mb (100 * 1024 * 1024) = 100
  ∧ deliveryMode (100 * 1024 * 1024) = DeliveryMode.inlineMedia
  ∧ deliveryMode (100 * 1024 * 1024 + 1) = DeliveryMode.inlineMedia
  ∧ deliveryMode 104862843 = DeliveryMode.fileUpload
  ∧ (∀ n : ℕ, n ≤ 104862842 → deliveryMode n = DeliveryMode.inlineMedia)
  ∧ (∀ n : ℕ, deliveryMode n = DeliveryMode.fileUpload
      ↔ get_file_size_mb n > (VIDEO_MAX_MB : ℚ))
  ∧ (∀ (env : AvsEnv) (files : Finset TmpFile) (f : TmpFile), f ∈ files →
      env.noticeSendOk = true → get_file_size_mb env.sizeBytes > (VIDEO_MAX_MB : ℚ) →
      ∃ t1 t2, (auto_video_send (.localFile f) env files).trace
        = t1 ++ [Ev.sendOversizeNotice, Ev.uploadVideoFile] ++ t2) := by
  refine ⟨?_, ?_, ?_, ?_, fun n hn => deliveryMode_inline_below n hn, ?_, ?_⟩
  · norm_num [get_file_size_mb, pyRound2, pyRoundInt]
  · norm_num [deliveryMode, get_file_size_mb, pyRound2, pyRoundInt, VIDEO_MAX_MB]
  · norm_num [deliveryMode, get_file_size_mb, pyRound2, pyRoundInt, VIDEO_MAX_MB]
  · norm_num [deliveryMode, get_file_size_mb, pyRound2, pyRoundInt, VIDEO_MAX_MB]
  · intro n
    unfold deliveryMode
    split_ifs with h
    · simp [h]
    · simp [h]
  · intro env files f hm hn hsz
    have hst2 : avsPhase2 env files (some f) false
        = (files, [Ev.sendOversizeNotice, Ev.uploadVideoFile], !env.uploadOk) := by
      simp [avsPhase2, hm, hsz, hn]
    refine ⟨[Ev.deliverStart],
      (if (!env.uploadOk) = true then [Ev.deliverCaught] else [])
        ++ ((avsFinally (some f) files).2 ++ [Ev.deliverDone]), ?_⟩
    simp only [auto_video_send, avsPhase1, hst2]
    simp

/-- Claim C3, counterexample: when the video stream download fails the
handler raises and no export event occurs, so a media-pipeline failure
does prevent the comment/danmaku export, contrary to the claim. -/
theorem media_failure_blocks_export :
    (handleVideo envVideoDlFail ∅).raised = true
  ∧ Ev.sendExportNotice ∉ (handleVideo envVideoDlFail ∅).trace
  ∧ Ev.csvCreated ∉ (handleVideo envVideoDlFail ∅).trace := by
  decide

/-- Claim C5, counterexample: with duration 700 against maximum 480
the handler still runs the export — it sends the export notice and
creates the CSV temporary — contradicting the claim's "sends only the
informational message" and "no temporary files are created". -/
theorem export_even_when_too_long :
    Ev.csvCreated ∈ (handleVideo envTooLong ∅).trace
  ∧ Ev.sendExportNotice ∈ (handleVideo envTooLong ∅).trace := by
  decide

/-- Claim C7 (amended): every failure inside delivery is caught and
does not propagate; cleanup of the artifact currently named by
`data_path` and of its `.jpg` sidecar always runs; but when the remote
fetch fails mid-stream the partially downloaded temporary is leaked,
because `data_path` still holds the URL when the `finally` block
runs. -/
theorem delivery_failures_contained (env : AvsEnv) (files : Finset TmpFile) (f : TmpFile) :
    ((auto_video_send (.localFile f) env files).files = (files.erase f).erase (.thumb f))
  ∧ (env.fetch = .ok → (auto_video_send .remoteUrl env files).files
        = (files.erase .dlTmp).erase (.thumb .dlTmp))
  ∧ (env.fetch = .failConnect → (auto_video_send .remoteUrl env files).files = files)
  ∧ (env.fetch = .failMid →
        (auto_video_send .remoteUrl env files).files = insert .dlTmp files
      ∧ (auto_video_send .remoteUrl env files).caught = true
      ∧ Ev.deliverCaught ∈ (auto_video_send .remoteUrl env files).trace) := by
  refine ⟨avs_local_files env files f, ?_, ?_, ?_⟩
  · intro h; rw [avs_remote_files, h]
  · intro h; rw [avs_remote_files, h]
  · intro h
    exact ⟨by rw [avs_remote_files, h], (avs_remote_failMid_caught env files h).1,
      (avs_remote_failMid_caught env files h).2⟩

/-- Claim C7, counterexample: a mid-stream remote-fetch failure
leaves the partial download behind after `auto_video_send` returns,
contradicting "no temporary file created during delivery is
leaked". -/
theorem delivery_remote_fetch_leak :
    (auto_video_send .remoteUrl avsEnvFetchMid ∅).files = {TmpFile.dlTmp}
  ∧ (auto_video_send .remoteUrl avsEnvFetchMid ∅).files ≠ ∅ := by
  decide

/-- Claim C6: with N captions and M comments (N ≠ M) the CSV has
exactly max(N, M) data rows after its header row, every row has two
columns, the shorter column is padded with empty strings at every index
beyond its length, and the file is written as UTF-8 with a byte-order
mark. -/
theorem csv_rows_padded (ds cs : List String) (_h : ds.length ≠ cs.length) :
    (csvRows ds cs).length = 1 + max ds.length cs.length
  ∧ (∀ r ∈ csvRows ds cs, r.length = 2)
  ∧ (∀ i, ds.length ≤ i → ((zipLongestFill ds cs).getD i ("", "")).1 = "")
  ∧ (∀ i, cs.length ≤ i → ((zipLongestFill ds cs).getD i ("", "")).2 = "")
  ∧ csvEncoding = "utf-8-sig" := by
  refine ⟨?_, ?_, fun i hi => zlf_fst_pad ds cs i hi, fun i hi => zlf_snd_pad ds cs i hi, rfl⟩
  · simp [csvRows, zipLongestFill_length]
    omega
  · intro r hr
    rcases List.mem_cons.mp hr with hh | hh
    · subst hh; rfl
    · obtain ⟨p, _, rfl⟩ := List.mem_map.mp hh
      rfl

/-- Claim C8: the caption fetcher and the comment fetcher never raise
to their caller; each returns the list accumulated before the failure
(everything beyond the first failing page is irrelevant, and a
successful page followed by a failure yields exactly that page's
formatted comments), so the export never requires a fully successful
fetch of both. -/
theorem fetchers_return_accumulated (denv : DanmakuEnv) (cenv junk : List (Option CommentPage))
    (acc : List String) (pg : CommentPage) (rest : List (Option CommentPage)) :
    (danmakuBody denv = .error acc → get_danmaku_list_async denv = acc)
  ∧ (∀ texts, danmakuBody denv = .ok texts → get_danmaku_list_async denv = texts)
  ∧ (get_comments_list_async (cenv ++ none :: junk) = get_comments_list_async (cenv ++ [none]))
  ∧ (pg.replies ≠ [] → ¬ pg.count ≤ pg.num * pg.size →
      get_comments_list_async (some pg :: none :: rest) = processReplies pg.replies) := by
  refine ⟨?_, ?_, ?_, comments_one_page pg rest⟩
  · intro hh
    unfold get_danmaku_list_async
    rw [hh]
  · intro t hh
    unfold get_danmaku_list_async
    rw [hh]
  · unfold get_comments_list_async
    rw [commentsLoop_junk]

/-- Claim C9: for a `p=k` query parameter with 1 ≤ k ≤ number of
pages, the duration compared against the maximum is the duration of
page k (entry k-1 of the page list), falling back to the whole-video
duration when that entry has no duration key; when k exceeds the page
count the whole-video duration is used. -/
theorem page_selection (k : ℤ) (ps : List (Option ℕ)) (dur : ℕ) (h1 : 1 ≤ k) :
    (k ≤ ps.length → effectiveDuration (some k) (some ps) dur
        = some (((ps.get? (k - 1).toNat).getD none).getD dur))
  ∧ ((ps.length : ℤ) < k → effectiveDuration (some k) (some ps) dur = some dur) :=
  ⟨fun hk => effDur_in_range k ps dur h1 hk, fun hk => effDur_out_of_range k ps dur hk⟩

/-- Witness for claim C1's amended theorem at the all-successful
environment. -/
theorem media_files_always_cleaned_witness :
    envAllOk.csvWriteOk = true ∧ envAllOk.csvUploadOk = true
  ∧ (handleVideo envAllOk ∅).files = ∅ :=
  ⟨rfl, rfl, (media_files_always_cleaned envAllOk).2 rfl rfl⟩

/-- Witness for claim C2's amended theorem: a 200 MB artifact takes
the notice-then-upload path. -/
theorem size_threshold_rounding_witness :
    TmpFile.resMp4 ∈ ({TmpFile.resMp4} : Finset TmpFile)
  ∧ get_file_size_mb 209715200 > (VIDEO_MAX_MB : ℚ)
  ∧ (104862842 : ℕ) ≤ 104862842
  ∧ deliveryMode 104862842 = DeliveryMode.inlineMedia
  ∧ ∃ t1 t2, (auto_video_send (.localFile .resMp4) ⟨.ok, true, true, true, false, 209715200⟩
      {TmpFile.resMp4}).trace = t1 ++ [Ev.sendOversizeNotice, Ev.uploadVideoFile] ++ t2 := by
  have hsz : get_file_size_mb 209715200 > (VIDEO_MAX_MB : ℚ) := by
    norm_num [get_file_size_mb, pyRound2, pyRoundInt, VIDEO_MAX_MB]
  exact ⟨by decide, hsz, le_refl _,
    size_threshold_rounding.2.2.2.2.1 104862842 (le_refl _),
    size_threshold_rounding.2.2.2.2.2.2 _ _ _ (by decide) rfl hsz⟩

/-- Witness for claim C3's amended theorem at the failing-download
environment. -/
theorem export_after_media_witness :
    ¬ envVideoDlFail.duration > envVideoDlFail.maxDuration
  ∧ envVideoDlFail.infoSendOk = true
  ∧ envVideoDlFail.streamsOk = true
  ∧ (envVideoDlFail.videoDlOk && envVideoDlFail.audioDlOk && envVideoDlFail.muxOk) = false
  ∧ (∀ e ∈ (handleVideo envVideoDlFail ∅).trace, isExportEv e = false) :=
  ⟨by decide, rfl, rfl, by decide,
    (export_after_media envVideoDlFail).2 (by decide) rfl rfl (by decide)⟩

/-- Witness for claim C4's theorem on the all-successful and the
failing-download environments. -/
theorem pipeline_order_witness :
    Ev.muxStart ∈ (handleVideo envAllOk ∅).trace
  ∧ List.Sublist [Ev.muxStart, Ev.muxDone true, Ev.deliverStart] (handleVideo envAllOk ∅).trace
  ∧ List.Sublist [Ev.deliverStart, Ev.deliverDone, Ev.unlink TmpFile.videoM4s,
      Ev.unlink TmpFile.audioM4s] (handleVideo envAllOk ∅).trace
  ∧ (envVideoDlFail.videoDlOk && envVideoDlFail.audioDlOk) = false
  ∧ Ev.muxStart ∉ (handleVideo envVideoDlFail ∅).trace := by
  have hdel : Ev.deliverStart ∈ (handleVideo envAllOk ∅).trace := by
    simp [handleVideo, mediaStage, exportStage, auto_video_send, avsPhase1, avsPhase2,
      avsFinally, unlink1, envAllOk, avsEnvOk, size1000_not_over]
  have hmux : Ev.muxStart ∈ (handleVideo envAllOk ∅).trace := by
    simp [handleVideo, mediaStage, exportStage, auto_video_send, avsPhase1, avsPhase2,
      avsFinally, unlink1, envAllOk, avsEnvOk, size1000_not_over]
  exact ⟨hmux, ((pipeline_order envAllOk).2.2.2 hdel).2.1,
    ((pipeline_order envAllOk).2.2.2 hdel).2.2, by decide,
    ((pipeline_order envVideoDlFail).2.1 (by decide)).1⟩

/-- Witness for claim C5's amended theorem at the too-long
environment. -/
theorem too_long_skips_media_witness :
    envTooLong.duration > envTooLong.maxDuration
  ∧ (∀ e ∈ (handleVideo envTooLong ∅).trace, isMediaEv e = false)
  ∧ Ev.sendTooLong ∈ (handleVideo envTooLong ∅).trace
  ∧ Ev.sendExportNotice ∈ (handleVideo envTooLong ∅).trace := by
  have h := too_long_skips_media envTooLong (by decide)
  exact ⟨by decide, h.1, h.2.1, (h.2.2.2 rfl).1⟩

/-- Witness for claim C7's amended theorem at the mid-stream fetch
failure environment. -/
theorem delivery_failures_contained_witness :
    avsEnvFetchMid.fetch = FetchOutcome.failMid
  ∧ (auto_video_send .remoteUrl avsEnvFetchMid ∅).files = insert .dlTmp ∅
  ∧ (auto_video_send .remoteUrl avsEnvFetchMid ∅).caught = true
  ∧ Ev.deliverCaught ∈ (auto_video_send .remoteUrl avsEnvFetchMid ∅).trace := by
  have h := (delivery_failures_contained avsEnvFetchMid ∅ TmpFile.resMp4).2.2.2 rfl
  exact ⟨rfl, h.1, h.2.1, h.2.2⟩

/-- Witness for claim C6's theorem at one caption and zero
comments. -/
theorem csv_rows_padded_witness :
    (["a"] : List String).length ≠ ([] : List String).length
  ∧ (csvRows ["a"] []).length
      = 1 + max (["a"] : List String).length ([] : List String).length :=
  ⟨by decide, (csv_rows_padded ["a"] [] (by decide)).1⟩

/-- Witness for claim C8's theorem on a failing pagelist request and
a one-good-page-then-failure comment environment. -/
theorem fetchers_return_accumulated_witness :
    danmakuBody DanmakuEnv.pagelistFail = .error []
  ∧ get_danmaku_list_async DanmakuEnv.pagelistFail = []
  ∧ get_comments_list_async [some ⟨[⟨"u", "m", 3, ["s"]⟩], 1, 20, 100⟩, none]
      = processReplies [⟨"u", "m", 3, ["s"]⟩] := by
  refine ⟨rfl, ?_, ?_⟩
  · exact (fetchers_return_accumulated DanmakuEnv.pagelistFail [] [] [] ⟨[], 0, 0, 0⟩ []).1 rfl
  · exact (fetchers_return_accumulated DanmakuEnv.pagelistFail [] [] []
      ⟨[⟨"u", "m", 3, ["s"]⟩], 1, 20, 100⟩ []).2.2.2 (List.cons_ne_nil _ _) (by decide)

/-- Witness for claim C9's theorem at page 2 of a three-page video
and at an out-of-range page 5. -/
theorem page_selection_witness :
    (1 : ℤ) ≤ 2
  ∧ effectiveDuration (some 2) (some [some 100, some 200, some 300]) 999 = some 200
  ∧ effectiveDuration (some 5) (some [some 100, some 200, some 300]) 999 = some 999 := by
  refine ⟨by decide, ?_, ?_⟩
  · have h := (page_selection 2 [some 100, some 200, some 300] 999 (by decide)).1 (by decide)
    rw [h]
    decide
  · exact (page_selection 5 [some 100, some 200, some 300] 999 (by decide)).2 (by decide)

theorem alnum_not_ws (c : Char) (h : c.isAlphanum = true) : c.isWhitespace = false := by
  by_cases hw : c.isWhitespace = true
  · exfalso
    simp only [Char.isWhitespace, Bool.or_eq_true, decide_eq_true_eq, or_assoc] at hw
    rcases hw with rfl | rfl | rfl | rfl <;> exact absurd h (by decide)
  · simpa using hw

theorem pyStrip_eq (l : List Char) (h : ∀ c ∈ l, c.isWhitespace = false) : pyStrip l = l := by
  have h1 : l.dropWhile Char.isWhitespace = l := by
    cases l with
    | nil => rfl
    | cons c cs => simp [List.dropWhile_cons, h c (List.mem_cons_self c cs)]
  rw [pyStrip, h1]
  have h2 : l.reverse.dropWhile Char.isWhitespace = l.reverse := by
    cases hr : l.reverse with
    | nil => rfl
    | cons c cs =>
      have hc : c ∈ l := by
        rw [← List.mem_reverse, hr]
        exact List.mem_cons_self _ _
      simp [List.dropWhile_cons, h c hc]
  rw [h2, List.reverse_reverse]

theorem litHead_sub (ps s : List Char) (h : litHead ps s = true) : ∀ x ∈ ps, x ∈ s := by
  induction ps generalizing s with
  | nil => simp
  | cons p ps ih =>
    cases s with
    | nil => simp [litHead] at h
    | cons c cs =>
      simp only [litHead, Bool.and_eq_true, beq_iff_eq] at h
      intro x hx
      rcases List.mem_cons.mp hx with rfl | hx
      · rw [h.1]; exact List.mem_cons_self _ _
      · exact List.mem_cons_of_mem _ (ih cs h.2 x hx)

theorem litSearch_sub (ps s : List Char) (h : litSearch ps s = true) : ∀ x ∈ ps, x ∈ s := by
  induction s with
  | nil =>
    intro x hx
    cases ps with
    | nil => simp at hx
    | cons p ps => simp [litSearch, litHead] at h
  | cons c cs ih =>
    simp only [litSearch, Bool.or_eq_true] at h
    rcases h with h | h
    · exact litHead_sub _ _ h
    · exact fun x hx => List.mem_cons_of_mem _ (ih h x hx)

theorem litSearch_false (pat s : List Char) (x : Char) (hx : x ∈ pat) (hxs : x ∉ s) :
    litSearch pat s = false := by
  by_cases h : litSearch pat s = true
  · exact absurd (litSearch_sub pat s h x hx) hxs
  · simpa using h

theorem urlRegAt_none (s : List Char) (h : (':' : Char) ∉ s) : urlRegAt s = none := by
  have h1 : ¬ s.take 8 = "http:\\//".toList := fun hc =>
    h (List.take_subset 8 s (by rw [hc]; decide))
  have h2 : ¬ s.take 9 = "https:\\//".toList := fun hc =>
    h (List.take_subset 9 s (by rw [hc]; decide))
  unfold urlRegAt
  rw [if_neg h1, if_neg h2]

theorem urlRegSearch_none (s : List Char) (h : (':' : Char) ∉ s) : urlRegSearch s = none := by
  induction s with
  | nil => rfl
  | cons c cs ih =>
    have hcs : (':' : Char) ∉ cs := fun hx => h (List.mem_cons_of_mem _ hx)
    simp [urlRegSearch, urlRegAt_none _ h, ih hcs]

theorem findVideoId_none (s : List Char) (h : ('/' : Char) ∉ s) : findVideoId s = none := by
  induction s with
  | nil => rfl
  | cons c cs ih =>
    have hcs : ('/' : Char) ∉ cs := fun hx => h (List.mem_cons_of_mem _ hx)
    have hc : ¬ (c :: cs).take 6 = "video/".toList := fun he =>
      h (List.take_subset 6 (c :: cs) (by rw [he]; decide))
    simp only [findVideoId]
    rw [if_neg hc]
    exact ih hcs

/-- Claim C10, counterexample: an 11-character message `BV012345678`
(the length the claim literally states) does not trigger the matcher at
all, and the 12-character id `BV0live12345` containing `live` enters
the live branch and raises instead of returning. -/
theorem bare_bv_trigger_gap :
    triggerMatch "BV012345678" = false
  ∧ preRoute "BV0live12345" false = PreOutcome.liveRaise := by
  exact ⟨by decide, by decide⟩

/-- Claim C10 (amended): a chat message that is exactly a 12-character
BV identifier (`BV` plus 10 alphanumerics) containing the digit `0`
triggers the matcher but is not expanded (the expansion pattern
excludes `0`); provided the identifier does not contain `live`, `read`
or `favlist` as a substring, the handler reaches the video-id check,
finds no `video/` segment and returns silently; an identifier without a
`0` is expanded to a video URL and reaches the video branch. -/
theorem bare_bv_zero_not_expanded (rest : List Char) (hlen : rest.length = 10)
    (halnum : ∀ c ∈ rest, c.isAlphanum = true) (h0 : '0' ∈ rest)
    (hlive : litSearch "live".toList ('B' :: 'V' :: rest) = false)
    (hread : litSearch "read".toList ('B' :: 'V' :: rest) = false)
    (hfav : litSearch "favlist".toList ('B' :: 'V' :: rest) = false) :
    triggerMatch (String.mk ('B' :: 'V' :: rest)) = true
  ∧ bvStrict ('B' :: 'V' :: rest) = false
  ∧ (∀ sess, preRoute (String.mk ('B' :: 'V' :: rest)) sess = PreOutcome.earlyReturn)
  ∧ preRoute "BV1abcdefghi" false = PreOutcome.videoBranch "BV1abcdefghi" := by
  have hml : (String.mk ('B' :: 'V' :: rest)).toList = 'B' :: 'V' :: rest := rfl
  have hnotin : ∀ x : Char, x.isAlphanum = false → x ∉ ('B' :: 'V' :: rest) := by
    intro x hx hmem
    rcases List.mem_cons.mp hmem with rfl | hmem
    · exact absurd hx (by decide)
    rcases List.mem_cons.mp hmem with rfl | hmem
    · exact absurd hx (by decide)
    · rw [halnum x hmem] at hx; cases hx
  have hbfull : bvFull ('B' :: 'V' :: rest) = true := by
    simp only [bvFull, Bool.and_eq_true, beq_iff_eq, List.all_eq_true]
    exact ⟨hlen, fun c hc => halnum c hc⟩
  have hbvs : bvStrict ('B' :: 'V' :: rest) = false := by
    have hall : rest.all (fun c => c.isAlphanum && !(c == '0')) = false := by
      rw [List.all_eq_false]
      exact ⟨'0', h0, by decide⟩
    simp [bvStrict, hall]
  refine ⟨?_, hbvs, ?_, by decide⟩
  · simp [triggerMatch, hml, hbfull]
  · intro sess
    have hws : ∀ c ∈ ('B' :: 'V' :: rest), c.isWhitespace = false := by
      intro c hc
      rcases List.mem_cons.mp hc with rfl | hc
      · decide
      rcases List.mem_cons.mp hc with rfl | hc
      · decide
      · exact alnum_not_ws c (halnum c hc)
    have hstrip : pyStrip ('B' :: 'V' :: rest) = 'B' :: 'V' :: rest := pyStrip_eq _ hws
    have hb23 : litSearch "b23.tv".toList ('B' :: 'V' :: rest) = false :=
      litSearch_false _ _ '.' (by decide) (hnotin '.' (by decide))
    have hbili : litSearch "bili2233.cn".toList ('B' :: 'V' :: rest) = false :=
      litSearch_false _ _ '.' (by decide) (hnotin '.' (by decide))
    have hqq : litSearch "QQ小程序".toList ('B' :: 'V' :: rest) = false :=
      litSearch_false _ _ '小' (by decide) (hnotin '小' (by decide))
    have hcolon : urlRegSearch ('B' :: 'V' :: rest) = none :=
      urlRegSearch_none _ (hnotin ':' (by decide))
    have htb : litSearch "t.bilibili.com".toList ('B' :: 'V' :: rest) = false :=
      litSearch_false _ _ '.' (by decide) (hnotin '.' (by decide))
    have hopus : litSearch "/opus".toList ('B' :: 'V' :: rest) = false :=
      litSearch_false _ _ '/' (by decide) (hnotin '/' (by decide))
    have hvid : findVideoId ('B' :: 'V' :: rest) = none :=
      findVideoId_none _ (hnotin '/' (by decide))
    unfold preRoute
    rw [hml, hstrip]
    simp only [hbvs, Bool.false_eq_true, if_false, hb23, hbili, hqq, Bool.or_self,
      Bool.or_false, hcolon, htb, hopus, hlive, hread, hfav, Bool.false_and, Bool.and_false,
      hvid]

/-- Witness for claim C10's amended theorem at the identifier
`BV0abcdefghi`. -/
theorem bare_bv_zero_witness :
    (("0abcdefghi".toList : List Char).length = 10)
  ∧ '0' ∈ ("0abcdefghi".toList : List Char)
  ∧ triggerMatch (String.mk ('B' :: 'V' :: "0abcdefghi".toList)) = true
  ∧ bvStrict ('B' :: 'V' :: "0abcdefghi".toList) = false
  ∧ preRoute (String.mk ('B' :: 'V' :: "0abcdefghi".toList)) false = PreOutcome.earlyReturn := by
  have h := bare_bv_zero_not_expanded ("0abcdefghi".toList) (by decide) (by decide) (by decide)
    (by decide) (by decide) (by decide)
  exact ⟨by decide, by decide, h.1, h.2.1, h.2.2.1 false⟩
